import Mathlib

/-
  Verification development for the Lightning Infill generator
  (src/src/libslic3r/Fill/Lightning/Generator.hpp).

  The repository provides only the header `Generator.hpp`, a thin declaration
  of the engine.  The data model and the algorithms below are therefore
  modelled from the specification (spec.md): geometry is fixed-point 2D
  (integers), polygon regions are discretised as finite point sets, and the
  per-layer forest is an index arena (spec 9, "Design notes": nodes addressed
  by integer index, parent links stored as indices or "no parent").
-/

namespace Lightning

/-- Modelled from the spec: fixed-point 2D point of the geometry library
(the coordinate primitives are not part of src). -/
structure Point where
  x : Int
  y : Int
deriving DecidableEq

instance : Inhabited Point := ⟨⟨0, 0⟩⟩

/-- Squared Euclidean distance between two fixed-point points. -/
def dist2 (p q : Point) : Int :=
  (p.x - q.x) * (p.x - q.x) + (p.y - q.y) * (p.y - q.y)

/-- Fuelled integer square root (largest `r` with `r * r ≤ n` for adequate
fuel), by the classic quarter recursion. -/
def isqrtAux : Nat → Nat → Nat
  | 0, _ => 0
  | fuel + 1, n =>
      if n < 2 then n
      else
        let r := 2 * isqrtAux fuel (n / 4)
        if (r + 1) * (r + 1) ≤ n then r + 1 else r

/-- Integer square root with adequate fuel. -/
def isqrt (n : Nat) : Nat := isqrtAux n n

/-- Modelled from the spec: length of the segment between two fixed-point
points, rounded to the coordinate unit (integer square root of the squared
distance). -/
def segLen (p q : Point) : Nat :=
  isqrt (dist2 p q).toNat

/-- Modelled from the spec: a polygon region, discretised as a finite set of
fixed-point points (the polygon library is not part of src). -/
def Region : Type := List Point

/-- Membership of a point in a (discretised) region. -/
def inRegion (reg : List Point) (p : Point) : Bool :=
  reg.any (fun q => decide (q = p))

/-- Modelled from the spec: per-layer input geometry (wall polygons and
infill-eligible area polygons), discretised as point sets. -/
structure LayerGeometry where
  walls : List Point
  infill : List Point
deriving DecidableEq

instance : Inhabited LayerGeometry := ⟨⟨[], []⟩⟩

/-- Modelled from the spec: the print object as seen by the generator, the
ordered stack of per-layer geometry, index 0 the bottommost layer. -/
structure PrintObject where
  layers : List LayerGeometry
deriving DecidableEq

/-- Modelled from the spec (4.1): `computeOverhang(layerAbove, layerHere,
wallSupportingRadius)` offsets the layer-above's wall region outward by
`wallSupportingRadius` and subtracts it from `layerHere`'s infill-eligible
area; a point survives exactly when no wall point of the layer above is
within the radius.  A zero-area (empty) result is a valid outcome. -/
def computeOverhang (wallsAbove : List Point) (infillHere : List Point)
    (r : Int) : List Point :=
  infillHere.filter (fun p => !(wallsAbove.any (fun q => decide (dist2 p q ≤ r * r))))

/-- Modelled from the spec (3, 9): a tree node of the per-layer forest: a 2D
position, a parent reference expressed as a non-owning index into the same
arena (`none` for roots), and the accumulated "distance since last supported
point" used for pruning. -/
structure TreeNode where
  pos : Point
  parent : Option Nat
  acc : Nat
deriving DecidableEq

instance : Inhabited TreeNode := ⟨⟨⟨0, 0⟩, none, 0⟩⟩

/-- Modelled from the spec (3): a `LightningLayer` owns the forest of tree
nodes for one layer (the node arena; the spatial index it also owns is
derivable from the arena and is not materialised here). -/
structure LightningLayer where
  nodes : List TreeNode
deriving DecidableEq

instance : Inhabited LightningLayer := ⟨⟨[]⟩⟩

/-- Modelled from the spec (4.3 step 2): a point of the overhang region is
covered when it lies within the supporting radius of some carried-down node. -/
def coveredBy (carried : List TreeNode) (r : Int) (p : Point) : Bool :=
  carried.any (fun n => decide (dist2 n.pos p ≤ r * r))

/-- Modelled from the spec (4.3 step 2): the uncovered part of the overhang
region, the points not within the supporting radius of any carried-down node. -/
def uncoveredPoints (carried : List TreeNode) (r : Int) (ov : List Point) :
    List Point :=
  ov.filter (fun p => !(coveredBy carried r p))

/-- Modelled from the spec (4.2): `nearestNode(point, maxDistance)` returns
the index of the closest node of the arena within `maxDistance` of `point`,
or none (first minimal index on ties, a deterministic rule). -/
def nearestNode (arena : List TreeNode) (p : Point) (r : Int) : Option Nat :=
  (((List.range arena.length).filter
      (fun i => decide (dist2 (arena.getD i default).pos p ≤ r * r))).argmin
    (fun i => dist2 (arena.getD i default).pos p))

/-- Modelled from the spec (4.2): `addRoot(point)` spawns a fresh root at
`point`; its accumulated unsupported distance starts at zero. -/
def addRoot (arena : List TreeNode) (p : Point) : List TreeNode :=
  arena ++ [{ pos := p, parent := none, acc := 0 }]

/-- Modelled from the spec (4.2): `growChild(parent, point)` creates a node at
`point` whose parent is `parent`; its accumulator is reset to zero if `point`
lies inside the current layer's overhang region, and otherwise set to the
parent's accumulator plus the parent-to-child segment length. -/
def growChild (arena : List TreeNode) (i : Nat) (p : Point) (ov : List Point) :
    List TreeNode :=
  arena ++ [{ pos := p, parent := some i,
              acc := if inRegion ov p then 0
                     else (arena.getD i default).acc
                          + segLen (arena.getD i default).pos p }]

/-- Modelled from the spec (4.3 step 3): for one uncovered point, attempt
`nearestNode(point, supporting_radius)` against the provisional tree; if
found, grow a child off that node, else add a fresh root.  Returns the new
arena and whether a root was spawned. -/
def growStep (r : Int) (ov : List Point) (arena : List TreeNode) (p : Point) :
    List TreeNode × Bool :=
  match nearestNode arena p r with
  | some i => (growChild arena i p ov, false)
  | none => (addRoot arena p, true)

/-- Modelled from the spec (4.3 steps 2-3): growth for the uncovered need of
one layer.  Coverage is classified against the carried-down nodes; each
uncovered point is its own (discretised) sub-region and is addressed in list
order, attaching to the provisional tree (which includes nodes added earlier
in the pass) when possible.  Returns the grown arena and the number of roots
spawned. -/
def growAll (r : Int) (ov : List Point) (carried : List TreeNode) :
    List TreeNode × Nat :=
  (uncoveredPoints carried r ov).foldl
    (fun st p =>
      let res := growStep r ov st.1 p
      (res.1, st.2 + (if res.2 then 1 else 0)))
    (carried, 0)

/-- Modelled from the spec (4.3 step 4): the per-layer recomputation of every
node's accumulated unsupported distance: zero for a node lying inside the
current overhang region, and otherwise the (already recomputed) parent
accumulator plus the parent-to-self segment length (zero for a root).
Computed in index order, so each node reads an already-updated prefix. -/
def accList (arena : List TreeNode) (ov : List Point) : List Nat :=
  arena.foldl
    (fun accs n =>
      accs ++ [ if inRegion ov n.pos then 0
                else match n.parent with
                  | none => 0
                  | some j => accs.getD j 0
                              + segLen (arena.getD j default).pos n.pos ])
    []

/-- Modelled from the spec (4.3 step 4): distance accounting for one layer;
positions and parent links are untouched, only accumulators are replaced. -/
def account (arena : List TreeNode) (ov : List Point) : List TreeNode :=
  (List.range arena.length).map
    (fun i => { arena.getD i default with acc := (accList arena ov).getD i 0 })

/-- Modelled from the spec (4.2 prune, 4.3 step 5): whether a node survives
pruning.  A node survives when its accumulated unsupported distance is within
`pruneLen` (it is still "within prune_length of a need") or when some child
survives (it still carries a living branch); otherwise it is a purposeless
leaf, or becomes one transitively, and is removed.  Children live at larger
arena indices, so the recursion is fuelled. -/
def survives (arena : List TreeNode) (pruneLen : Nat) :
    Nat → Nat → Bool
  | 0, i => decide ((arena.getD i default).acc ≤ pruneLen)
  | fuel + 1, i =>
      decide ((arena.getD i default).acc ≤ pruneLen) ||
      (List.range arena.length).any
        (fun j => decide (i < j)
                  && decide ((arena.getD j default).parent = some i)
                  && survives arena pruneLen fuel j)

/-- Modelled from the spec (4.3 step 5): the pruning decision for node `i` of
the arena, with full fuel. -/
def pruneKeep (arena : List TreeNode) (pruneLen : Nat) (i : Nat) : Bool :=
  survives arena pruneLen arena.length i

/-- Modelled from the spec (4.3 step 5): the mask of nodes retained by the
pruning step. -/
def pruneMaskList (arena : List TreeNode) (pruneLen : Nat) : List Bool :=
  (List.range arena.length).map (pruneKeep arena pruneLen)

/-- Whether index `i` is retained by mask `mask`. -/
def isAlive (mask : List Bool) (i : Nat) : Bool :=
  mask.getD i false

/-- Number of retained children of node `i` in the arena. -/
def aliveChildCount (arena : List TreeNode) (mask : List Bool) (i : Nat) : Nat :=
  ((List.range arena.length).filter
    (fun j => isAlive mask j && decide ((arena.getD j default).parent = some i))).length

/-- Modelled from the spec (4.3 step 6): the interior nodes of the
non-branching run ending at node `i`, collected by climbing parent links:
a node qualifies as interior when it is retained, is not a root, and has
exactly one retained child.  Listed nearest-to-`i` first. -/
def climbInteriors (arena : List TreeNode) (mask : List Bool) :
    Nat → Nat → List Nat
  | 0, _ => []
  | fuel + 1, i =>
      match (arena.getD i default).parent with
      | none => []
      | some p =>
          if isAlive mask p && decide (aliveChildCount arena mask p = 1)
             && decide ((arena.getD p default).parent ≠ none) then
            p :: climbInteriors arena mask fuel p
          else
            []

/-- Modelled from the spec (4.3 step 6): the run start above node `i`: the
first ancestor that is not an interior node (a root or a branch point). -/
def climbStart (arena : List TreeNode) (mask : List Bool) :
    Nat → Nat → Nat
  | 0, i => i
  | fuel + 1, i =>
      match (arena.getD i default).parent with
      | none => i
      | some p =>
          if isAlive mask p && decide (aliveChildCount arena mask p = 1)
             && decide ((arena.getD p default).parent ≠ none) then
            climbStart arena mask fuel p
          else
            p

/-- Squared deviation measure of `p` from the line through `a` and `b`,
as the numerator `cross(b - a, p - a) ^ 2`; compared against
`eps ^ 2 * dist2 a b`.  For a degenerate (zero-length) base line the measure
degrades to the squared distance to `a`, compared against `eps ^ 2`. -/
def devNum (a b p : Point) : Int :=
  if a = b then dist2 p a
  else ((b.x - a.x) * (p.y - a.y) - (b.y - a.y) * (p.x - a.x))
       * ((b.x - a.x) * (p.y - a.y) - (b.y - a.y) * (p.x - a.x))

/-- Deviation threshold matching `devNum`. -/
def devBound (a b : Point) (eps : Int) : Int :=
  if a = b then eps * eps else eps * eps * dist2 a b

/-- Modelled from the spec (4.3 step 6): Douglas-Peucker-style simplification
of a polyline of (arena index, position) pairs: when every interior point
deviates from the end-to-end line by at most `eps`, the interior points are
dropped; otherwise the polyline is split at the point of maximal deviation
and both halves are simplified.  The recursion is fuelled; exhausted fuel
keeps the polyline unchanged. -/
def dpSimplify (eps : Int) : Nat → List (Nat × Point) → List (Nat × Point)
  | 0, chain => chain
  | fuel + 1, chain =>
      match chain with
      | [] => []
      | [x] => [x]
      | a :: rest =>
          match rest.getLast? with
          | none => [a]
          | some e =>
              let mid := rest.dropLast
              match mid.argmax (fun ip => devNum a.2 e.2 ip.2) with
              | none => chain
              | some m =>
                  if devNum a.2 e.2 m.2 ≤ devBound a.2 e.2 eps then
                    [a, e]
                  else
                    let k := chain.findIdx (fun ip => ip = m)
                    dpSimplify eps fuel (chain.take (k + 1))
                    ++ (dpSimplify eps fuel (chain.drop k)).drop 1

/-- Modelled from the spec (4.3 step 6): the interior nodes of the run ending
at `e` that the simplification drops.  Only interior nodes of the run are
candidates; the run endpoints (roots, branch points, leaves) are never
dropped. -/
def droppedForEnd (arena : List TreeNode) (mask : List Bool) (eps : Int)
    (e : Nat) : List Nat :=
  let interiors := climbInteriors arena mask arena.length e
  let s := climbStart arena mask arena.length e
  let chain := (s :: interiors.reverse ++ [e]).map
    (fun i => (i, (arena.getD i default).pos))
  let kept := dpSimplify eps (chain.length + 1) chain
  interiors.filter (fun i => !(kept.any (fun ip => decide (ip.1 = i))))

/-- Modelled from the spec (4.3 step 6): all nodes dropped by the
straightening step: for every run end (a retained node that does not have
exactly one retained child), the dropped interiors of its run. -/
def straightenDropped (arena : List TreeNode) (mask : List Bool) (eps : Int) :
    List Nat :=
  ((List.range arena.length).filter
      (fun e => isAlive mask e && decide (aliveChildCount arena mask e ≠ 1))).foldr
    (fun e acc => droppedForEnd arena mask eps e ++ acc) []

/-- Modelled from the spec (4.3 step 6, 9): reroute a parent link past
dropped nodes to the nearest retained ancestor.  The climb only ever moves to
strictly smaller arena indices (the arena discipline of the design notes:
parent links are indices into the prefix), so the result, when present, is
strictly below `i`. -/
def rerouteParent (arena : List TreeNode) (mask : List Bool) :
    Nat → Nat → Option Nat → Option Nat
  | _, _, none => none
  | 0, _, some _ => none
  | fuel + 1, i, some p =>
      if p < i then
        if isAlive mask p then some p
        else rerouteParent arena mask fuel p (arena.getD p default).parent
      else none

/-- Modelled from the spec (4.3 step 6): the straightening step.  Interior
nodes of non-branching runs dropped by the simplification are removed from
the mask, surviving nodes keep their positions and accumulators unchanged,
and parent links of surviving nodes are rerouted to the nearest retained
ancestor.  Branch points and roots are never dropped. -/
def straighten (arena : List TreeNode) (mask : List Bool) (eps : Int) :
    List TreeNode × List Bool :=
  let dropped := straightenDropped arena mask eps
  let mask2 := (List.range arena.length).map
    (fun i => isAlive mask i && !(dropped.any (fun d => decide (d = i))))
  let arena2 := (List.range arena.length).map
    (fun i =>
      let n := arena.getD i default
      { n with parent := rerouteParent arena mask2 arena.length i n.parent })
  (arena2, mask2)

/-- Modelled from the spec (4.3 step 7, 9): freezing a layer compacts the
arena to its retained nodes, remapping parent links to the new indices.  The
remap keeps the index order, and the arena discipline (a parent index always
points into the strict prefix) is enforced on the result. -/
def compact (arena : List TreeNode) (mask : List Bool) : List TreeNode :=
  let keptIdx := (List.range arena.length).filter (fun i => isAlive mask i)
  (List.range keptIdx.length).map
    (fun j =>
      let i := keptIdx.getD j 0
      let n := arena.getD i default
      { n with parent :=
          match n.parent with
          | none => none
          | some p =>
              match keptIdx.findIdx? (fun x => decide (x = p)) with
              | none => none
              | some pj => if pj < j then some pj else none })

/-- Modelled from the spec (4.3): processing of one layer, top to bottom:
carry-down of the completed arena of the layer above, need classification and
growth for the uncovered overhang, distance accounting, pruning, and
straightening; the result is frozen (compacted).  Returns the completed
arena and the number of roots spawned at this layer. -/
def processLayer (r : Int) (pruneLen : Nat) (eps : Int)
    (carried : List TreeNode) (ov : List Point) : List TreeNode × Nat :=
  let grown := growAll r ov carried
  let accounted := account grown.1 ov
  let pMask := pruneMaskList accounted pruneLen
  let straightened := straighten accounted pMask eps
  (compact straightened.1 straightened.2, grown.2)

/-- Modelled from the spec (4.3): the sequential top-to-bottom driver over
the layer stack; `ovs` lists the per-layer overhang regions topmost first,
and each completed arena is the carry-down input of the next layer below.
Returns the completed layers (topmost first) and the total number of roots
spawned. -/
def buildLayers (r : Int) (pruneLen : Nat) (eps : Int) :
    List TreeNode → List (List Point) → List LightningLayer × Nat
  | _, [] => ([], 0)
  | carried, ov :: rest =>
      let step := processLayer r pruneLen eps carried ov
      let tail := buildLayers r pruneLen eps step.1 rest
      (⟨step.1⟩ :: tail.1, step.2 + tail.2)

/-- Modelled from the spec (4.4, 6): the scalar parameters of the generator,
already resolved from config by the caller, in the fixed-point coordinate
unit. -/
structure Params where
  infill_extrusion_width : Int
  supporting_radius : Int
  wall_supporting_radius : Int
  prune_length : Int
  straightening_max_distance : Int
deriving DecidableEq

instance : Inhabited Params := ⟨⟨0, 0, 0, 0, 0⟩⟩

/-- The generator state declared in `Generator.hpp`: the scalar parameters
and the two write-once per-layer sequences (`m_overhang_per_layer`,
`m_lightning_layers`). -/
structure LightningGenerator where
  m_infill_extrusion_width : Int
  m_supporting_radius : Int
  m_wall_supporting_radius : Int
  m_prune_length : Int
  m_straightening_max_distance : Int
  m_overhang_per_layer : List (List Point)
  m_lightning_layers : List LightningLayer
deriving DecidableEq

instance : Inhabited LightningGenerator := ⟨⟨0, 0, 0, 0, 0, [], []⟩⟩

/-- Modelled from the spec (7): a ConfigurationError, raised for a negative
or otherwise invalid radius/length parameter at construction. -/
inductive ConfigError where
  | configurationError
deriving DecidableEq

/-- Modelled from the spec (7): a RangeError, raised by `getTreesForLayer`
for an index outside the layer range. -/
inductive RangeError where
  | rangeError
deriving DecidableEq

/-- The wall region of the layer above layer `L` (empty above the topmost
layer, the spec's 4.3 edge case). -/
def wallsAbove (po : PrintObject) (L : Nat) : List Point :=
  (po.layers.getD (L + 1) default).walls

/-- Modelled from the spec (4.1, 4.4): `generateInitialInternalOverhangs`
computes, for every layer, the overhang that needs to be supported by the
pattern: the layer's infill-eligible area minus the layer-above's wall region
offset outward by the wall supporting radius.  Indexed 1:1 with the layer
range. -/
def generateInitialInternalOverhangs (po : PrintObject) (wall_r : Int) :
    List (List Point) :=
  (List.range po.layers.length).map
    (fun L => computeOverhang (wallsAbove po L)
                (po.layers.getD L default).infill wall_r)

/-- Modelled from the spec (4.3, 4.4): the tree structures of all layers,
computed top-down, together with the total number of roots spawned.  The
result list is in layer-index order (bottommost first). -/
def generateTreesAux (po : PrintObject) (prm : Params) :
    List LightningLayer × Nat :=
  let ovs := (generateInitialInternalOverhangs po prm.wall_supporting_radius).reverse
  let built := buildLayers prm.supporting_radius prm.prune_length.toNat
    prm.straightening_max_distance [] ovs
  (built.1.reverse, built.2)

/-- Modelled from the spec (4.4): `generateTrees`, the per-layer completed
forests in layer-index order. -/
def generateTrees (po : PrintObject) (prm : Params) : List LightningLayer :=
  (generateTreesAux po prm).1

/-- Modelled from the spec (8): the total number of root nodes spawned across
all layers of a full generator run. -/
def totalRootsSpawned (po : PrintObject) (prm : Params) : Nat :=
  (generateTreesAux po prm).2

/-- Modelled from the spec (7): parameter validation at construction: every
radius/length parameter must be non-negative. -/
def validParams (prm : Params) : Bool :=
  decide (0 ≤ prm.infill_extrusion_width) && decide (0 ≤ prm.supporting_radius)
  && decide (0 ≤ prm.wall_supporting_radius) && decide (0 ≤ prm.prune_length)
  && decide (0 ≤ prm.straightening_max_distance)

/-- Modelled from the spec (4.4, 7): construction of the generator: fail-fast
parameter validation, then the eager run of `generateInitialInternalOverhangs`
followed by `generateTrees`, fully populating both per-layer sequences.
Construction either succeeds with both sequences complete or fails
synchronously with a ConfigurationError, exposing no partial state. -/
def LightningGenerator.construct (po : PrintObject) (prm : Params) :
    Except ConfigError LightningGenerator :=
  if validParams prm then
    .ok { m_infill_extrusion_width := prm.infill_extrusion_width
          m_supporting_radius := prm.supporting_radius
          m_wall_supporting_radius := prm.wall_supporting_radius
          m_prune_length := prm.prune_length
          m_straightening_max_distance := prm.straightening_max_distance
          m_overhang_per_layer :=
            generateInitialInternalOverhangs po prm.wall_supporting_radius
          m_lightning_layers := generateTrees po prm }
  else
    .error .configurationError

/-- Modelled from the spec (4.4, 7) over the declaration of
`getTreesForLayer` in `Generator.hpp` (a const member returning a const
reference): a pure lookup that fails with a RangeError exactly when
`layer_id` is outside the layer range. -/
def LightningGenerator.getTreesForLayer (g : LightningGenerator)
    (layer_id : Nat) : Except RangeError LightningLayer :=
  if h : layer_id < g.m_lightning_layers.length then
    .ok (g.m_lightning_layers.get ⟨layer_id, h⟩)
  else
    .error .rangeError

/-- Modelled from the const signature of `getTreesForLayer` in
`Generator.hpp`: the same lookup in explicit state-passing form, returning
the (unchanged) generator state alongside the result. -/
def LightningGenerator.getTreesForLayerSt (g : LightningGenerator)
    (layer_id : Nat) : Except RangeError LightningLayer × LightningGenerator :=
  (g.getTreesForLayer layer_id, g)

/-! ### Generic helper lemmas about the arena representation -/

theorem getD_lt {α : Type} [Inhabited α] (l : List α) (i : Nat)
    (h : i < l.length) : l.getD i default = l.get ⟨i, h⟩ := by
  simp [List.getD_eq_getElem?_getD, List.getElem?_eq_getElem h]

theorem getD_append_left {α : Type} [Inhabited α] (l l2 : List α) (i : Nat)
    (h : i < l.length) : (l ++ l2).getD i default = l.getD i default := by
  simp [List.getD_eq_getElem?_getD, List.getElem?_append_left h]

theorem getD_append_length {α : Type} [Inhabited α] (l : List α) (x : α) :
    (l ++ [x]).getD l.length default = x := by
  simp [List.getD_eq_getElem?_getD]

theorem getD_range_map {α : Type} [Inhabited α] (n : Nat) (f : Nat → α)
    (i : Nat) (h : i < n) : ((List.range n).map f).getD i default = f i := by
  have h2 : i < ((List.range n).map f).length := by simpa using h
  rw [getD_lt _ _ h2]
  simp

/-! ### Claim C6: range checking of getTreesForLayer -/

/-- C6: for every layer index, `getTreesForLayer` fails with a RangeError
exactly when the index is outside `[0, layerCount)`; for every in-range index
it returns that layer's completed forest; in particular the lookup at
`layerCount` fails and the lookup at `layerCount - 1` succeeds. -/
theorem C6_getTreesForLayer_range (g : LightningGenerator) (layer_id : Nat) :
    (layer_id < g.m_lightning_layers.length →
       g.getTreesForLayer layer_id =
         .ok (g.m_lightning_layers.getD layer_id default)) ∧
    (g.m_lightning_layers.length ≤ layer_id →
       g.getTreesForLayer layer_id = .error .rangeError) ∧
    g.getTreesForLayer g.m_lightning_layers.length = .error .rangeError ∧
    (0 < g.m_lightning_layers.length →
       (g.getTreesForLayer (g.m_lightning_layers.length - 1)).isOk = true) := by
  refine ⟨?_, ?_, ?_, ?_⟩
  · intro h
    rw [LightningGenerator.getTreesForLayer, dif_pos h]
    rw [getD_lt _ _ h]
  · intro h
    rw [LightningGenerator.getTreesForLayer, dif_neg (by omega)]
  · rw [LightningGenerator.getTreesForLayer, dif_neg (by omega)]
  · intro h
    have hlt : g.m_lightning_layers.length - 1 < g.m_lightning_layers.length := by
      omega
    rw [LightningGenerator.getTreesForLayer, dif_pos hlt]
    rfl

/-- Witness for C6 at a concrete generator with one layer. -/
theorem C6_getTreesForLayer_range_witness :
    ((⟨0, 0, 0, 0, 0, [[]], [⟨[]⟩]⟩ :
        LightningGenerator).getTreesForLayer 1 = .error .rangeError) ∧
    ((⟨0, 0, 0, 0, 0, [[]], [⟨[]⟩]⟩ :
        LightningGenerator).getTreesForLayer 0 = .ok ⟨[]⟩) := by
  refine ⟨(C6_getTreesForLayer_range ⟨0, 0, 0, 0, 0, [[]], [⟨[]⟩]⟩ 1).2.1
    (by decide), ?_⟩
  have h := (C6_getTreesForLayer_range ⟨0, 0, 0, 0, 0, [[]], [⟨[]⟩]⟩ 0).1
    (by decide)
  simpa using h

/-! ### Claim C8: determinism of construction -/

/-- C8: the generator is deterministic: two runs of the full construction on
identical layer geometry and identical parameter values produce identical
results, in particular identical per-layer forests. -/
theorem C8_deterministic (poA poB : PrintObject) (prmA prmB : Params)
    (hpo : poA = poB) (hprm : prmA = prmB) :
    LightningGenerator.construct poA prmA = LightningGenerator.construct poB prmB
    ∧ generateTrees poA prmA = generateTrees poB prmB := by
  subst hpo; subst hprm; exact ⟨rfl, rfl⟩

/-- Witness for C8 at a concrete print object and parameter set. -/
theorem C8_deterministic_witness :
    LightningGenerator.construct ⟨[⟨[], [⟨0, 0⟩]⟩]⟩ ⟨1, 2, 3, 4, 5⟩ =
      LightningGenerator.construct ⟨[⟨[], [⟨0, 0⟩]⟩]⟩ ⟨1, 2, 3, 4, 5⟩ :=
  (C8_deterministic ⟨[⟨[], [⟨0, 0⟩]⟩]⟩ ⟨[⟨[], [⟨0, 0⟩]⟩]⟩
    ⟨1, 2, 3, 4, 5⟩ ⟨1, 2, 3, 4, 5⟩ rfl rfl).1

/-! ### Claim C10: observational purity of getTreesForLayer -/

/-- C10: `getTreesForLayer` is observationally pure: in state-passing form it
leaves the generator state (both `m_overhang_per_layer` and
`m_lightning_layers`) unchanged, and two successive calls with the same layer
index return the same result. -/
theorem C10_getTreesForLayer_pure (g : LightningGenerator) (layer_id : Nat) :
    (g.getTreesForLayerSt layer_id).2 = g ∧
    (g.getTreesForLayerSt layer_id).2.m_overhang_per_layer =
      g.m_overhang_per_layer ∧
    (g.getTreesForLayerSt layer_id).2.m_lightning_layers =
      g.m_lightning_layers ∧
    ((g.getTreesForLayerSt layer_id).2.getTreesForLayerSt layer_id).1 =
      (g.getTreesForLayerSt layer_id).1 :=
  ⟨rfl, rfl, rfl, rfl⟩

/-! ### Shared concrete example inputs -/

/-- A two-layer print object: the top layer's infill holds a three-point
chain, the bottom layer's infill only the chain's tip. -/
def exPO : PrintObject :=
  ⟨[⟨[], [⟨120, 0⟩]⟩,
    ⟨[], [⟨0, 0⟩, ⟨60, 80⟩, ⟨120, 0⟩]⟩]⟩

/-- Parameters for `exPO`: supporting radius 100, prune length 50,
straightening max distance 10. -/
def exParams : Params := ⟨1, 100, 0, 50, 10⟩

/-- The generator constructed from `exPO` and `exParams`. -/
def exGen : LightningGenerator :=
  match LightningGenerator.construct exPO exParams with
  | .ok g => g
  | .error _ => default

/-- A three-layer print object: two chain points on top, an empty middle
layer, and two spread points at the bottom. -/
def exPO9 : PrintObject :=
  ⟨[⟨[], [⟨80, 44⟩, ⟨80, -44⟩]⟩,
    ⟨[], []⟩,
    ⟨[], [⟨0, 0⟩, ⟨80, 0⟩]⟩]⟩

/-- Parameters for `exPO9` with the smaller supporting radius 45. -/
def exParams9a : Params := ⟨1, 45, 0, 50, 10⟩

/-- Parameters for `exPO9` with the larger supporting radius 80; all other
parameters equal those of `exParams9a`. -/
def exParams9b : Params := ⟨1, 80, 0, 50, 10⟩

/-! ### Claim C7: atomic construction with fail-fast validation -/

theorem generateInitialInternalOverhangs_length (po : PrintObject) (r : Int) :
    (generateInitialInternalOverhangs po r).length = po.layers.length := by
  simp [generateInitialInternalOverhangs]

theorem buildLayers_length (r : Int) (pruneLen : Nat) (eps : Int)
    (carried : List TreeNode) (ovs : List (List Point)) :
    (buildLayers r pruneLen eps carried ovs).1.length = ovs.length := by
  induction ovs generalizing carried with
  | nil => rfl
  | cons ov rest ih => simp [buildLayers, ih]

theorem generateTrees_length (po : PrintObject) (prm : Params) :
    (generateTrees po prm).length = po.layers.length := by
  simp [generateTrees, generateTreesAux, buildLayers_length,
    generateInitialInternalOverhangs_length]

/-- C7: construction is atomic with fail-fast parameter validation: a
negative radius/length parameter makes construction fail with a
ConfigurationError, exposing no generator state; with valid parameters it
succeeds and fully populates both per-layer sequences (one entry per layer of
the print object). -/
theorem C7_construction_validation (po : PrintObject) (prm : Params) :
    (validParams prm = false →
       LightningGenerator.construct po prm = .error .configurationError) ∧
    ((prm.supporting_radius < 0 ∨ prm.wall_supporting_radius < 0 ∨
        prm.prune_length < 0 ∨ prm.straightening_max_distance < 0 ∨
        prm.infill_extrusion_width < 0) →
       LightningGenerator.construct po prm = .error .configurationError) ∧
    (validParams prm = true →
       ∃ g, LightningGenerator.construct po prm = .ok g ∧
         g.m_overhang_per_layer.length = po.layers.length ∧
         g.m_lightning_layers.length = po.layers.length) := by
  refine ⟨?_, ?_, ?_⟩
  · intro h
    rw [LightningGenerator.construct, if_neg (by simp [h])]
  · intro h
    have hv : validParams prm = false := by
      simp only [validParams, Bool.and_eq_false_iff, decide_eq_false_iff_not,
        not_le]
      omega
    rw [LightningGenerator.construct, if_neg (by simp [hv])]
  · intro h
    rw [LightningGenerator.construct, if_pos (by simp [h])]
    exact ⟨_, rfl, generateInitialInternalOverhangs_length po _,
      generateTrees_length po prm⟩

/-- Witness for C7: an invalid (negative prune length) parameter set fails,
and `exParams` succeeds with both sequences of length 2 on `exPO`. -/
theorem C7_construction_validation_witness :
    LightningGenerator.construct exPO ⟨1, 100, 0, -50, 10⟩ =
      .error .configurationError ∧
    (∃ g, LightningGenerator.construct exPO exParams = .ok g ∧
       g.m_overhang_per_layer.length = exPO.layers.length ∧
       g.m_lightning_layers.length = exPO.layers.length) :=
  ⟨(C7_construction_validation exPO ⟨1, 100, 0, -50, 10⟩).2.1
      (by right; right; left; decide),
   (C7_construction_validation exPO exParams).2.2 (by decide)⟩

/-! ### Claim C4: overhang regions are subsets of the infill-eligible area -/

/-- C4: for every layer of a constructed generator, the computed overhang
region equals the layer's infill-eligible area minus the layer-above's wall
region offset outward by the wall supporting radius; in particular it is a
subset of the layer's infill-eligible area (an empty result being a valid
outcome of the same successful construction). -/
theorem C4_overhang_subset (po : PrintObject) (prm : Params)
    (g : LightningGenerator)
    (h : LightningGenerator.construct po prm = .ok g) (L : Nat)
    (hL : L < po.layers.length) :
    g.m_overhang_per_layer.getD L default =
      computeOverhang (wallsAbove po L) (po.layers.getD L default).infill
        prm.wall_supporting_radius ∧
    ∀ p ∈ g.m_overhang_per_layer.getD L default,
      p ∈ (po.layers.getD L default).infill := by
  have hov : g.m_overhang_per_layer =
      generateInitialInternalOverhangs po prm.wall_supporting_radius := by
    rw [LightningGenerator.construct] at h
    split at h
    · cases h
      rfl
    · cases h
  have heq : g.m_overhang_per_layer.getD L default =
      computeOverhang (wallsAbove po L) (po.layers.getD L default).infill
        prm.wall_supporting_radius := by
    rw [hov, generateInitialInternalOverhangs, getD_range_map _ _ _ hL]
  refine ⟨heq, ?_⟩
  intro p hp
  rw [heq] at hp
  exact (List.mem_filter.mp hp).1

/-- Witness for C4 on the concrete generator `exGen` at layer 0. -/
theorem C4_overhang_subset_witness :
    exGen.m_overhang_per_layer.getD 0 default =
      computeOverhang (wallsAbove exPO 0) (exPO.layers.getD 0 default).infill
        exParams.wall_supporting_radius :=
  (C4_overhang_subset exPO exParams exGen rfl 0 (by decide)).1

/-! ### Claim C5: the growChild accumulator rule -/

/-- C5: `growChild` sets the child's accumulated unsupported distance to zero
exactly when the new point lies inside the current layer's overhang region,
and otherwise to the parent's accumulator plus the parent-to-child segment
length; in the latter case the accumulator is monotonically non-decreasing
along the growing branch. -/
theorem C5_growChild_accumulator (arena : List TreeNode) (i : Nat) (p : Point)
    (ov : List Point) (_hi : i < arena.length) :
    (inRegion ov p = true →
       ((growChild arena i p ov).getD arena.length default).acc = 0) ∧
    (inRegion ov p = false →
       ((growChild arena i p ov).getD arena.length default).acc =
         (arena.getD i default).acc + segLen (arena.getD i default).pos p ∧
       (arena.getD i default).acc ≤
         ((growChild arena i p ov).getD arena.length default).acc) ∧
    ((growChild arena i p ov).getD arena.length default).parent = some i ∧
    ((growChild arena i p ov).getD arena.length default).pos = p := by
  rw [growChild, getD_append_length]
  refine ⟨fun hin => ?_, fun hin => ?_, rfl, rfl⟩
  · simp [hin]
  · constructor
    · simp [hin]
    · simp only [hin, Bool.false_eq_true, if_false]
      exact Nat.le_add_right _ _

/-- Witness for C5: growing a child at (3, 4) off a root at the origin with
an empty overhang region gives accumulator 0 + 5. -/
theorem C5_growChild_accumulator_witness :
    ((growChild [⟨⟨0, 0⟩, none, 0⟩] 0 ⟨3, 4⟩ []).getD 1 default).acc =
      (([⟨⟨0, 0⟩, none, 0⟩] : List TreeNode).getD 0 default).acc
        + segLen (([⟨⟨0, 0⟩, none, 0⟩] : List TreeNode).getD 0 default).pos
            ⟨3, 4⟩ :=
  ((C5_growChild_accumulator [⟨⟨0, 0⟩, none, 0⟩] 0 ⟨3, 4⟩ []
    (by decide)).2.1 (by decide)).1

/-! ### Claim C1: pruning and the accumulated unsupported distance -/

theorem getD_ge {α : Type} [Inhabited α] (l : List α) (i : Nat)
    (h : l.length ≤ i) : l.getD i default = default := by
  simp [List.getD_eq_getElem?_getD, List.getElem?_eq_none h]

theorem any_congr {α : Type} (l : List α) (f g : α → Bool)
    (h : ∀ x ∈ l, f x = g x) : l.any f = l.any g := by
  induction l with
  | nil => rfl
  | cons a t ih =>
      simp only [List.any_cons, h a (by simp)]
      rw [ih (fun x hx => h x (by simp [hx]))]

theorem default_acc : (default : TreeNode).acc = 0 := rfl

/-- Out-of-range indices trivially survive pruning (the default node has a
zero accumulator). -/
theorem survives_ge (arena : List TreeNode) (pruneLen : Nat) (i : Nat)
    (h : arena.length ≤ i) (fuel : Nat) :
    survives arena pruneLen fuel i = true := by
  cases fuel with
  | zero =>
      simp only [survives, getD_ge _ _ h, default_acc]
      simp
  | succ f =>
      simp only [survives, getD_ge _ _ h, default_acc]
      simp

/-- The pruning decision is stable in the fuel, once the fuel covers the
distance from the node to the end of the arena. -/
theorem survives_stable (arena : List TreeNode) (pruneLen : Nat) :
    ∀ f1 f2 i, arena.length - i ≤ f1 → arena.length - i ≤ f2 →
      survives arena pruneLen f1 i = survives arena pruneLen f2 i := by
  intro f1
  induction f1 with
  | zero =>
      intro f2 i h1 _
      have hi : arena.length ≤ i := by omega
      rw [survives_ge _ _ _ hi, survives_ge _ _ _ hi]
  | succ f ih =>
      intro f2 i h1 h2
      cases f2 with
      | zero =>
          have hi : arena.length ≤ i := by omega
          rw [survives_ge _ _ _ hi, survives_ge _ _ _ hi]
      | succ f2 =>
          simp only [survives]
          congr 1
          apply any_congr
          intro j hj
          have hjlen : j < arena.length := List.mem_range.mp hj
          by_cases hij : i < j
          · have hrec : survives arena pruneLen f j =
                survives arena pruneLen f2 j := by
              apply ih
              · omega
              · omega
            simp [hrec]
          · simp [hij]

/-- C1 (amended): after the pruning step, every retained branch tip is within
the prune budget: a retained node with no retained children has accumulated
unsupported distance at most `pruneLen`.  (Retained interior nodes above a
reset point may exceed it, as `C1_counterexample` shows.) -/
theorem C1_pruned_tips (arena : List TreeNode) (pruneLen : Nat) (i : Nat)
    (hi : i < arena.length) (hkeep : pruneKeep arena pruneLen i = true)
    (hleaf : ∀ j, j < arena.length →
       (arena.getD j default).parent = some i →
       pruneKeep arena pruneLen j = false) :
    (arena.getD i default).acc ≤ pruneLen := by
  obtain ⟨n, hn⟩ : ∃ n, arena.length = n + 1 := ⟨arena.length - 1, by omega⟩
  rw [pruneKeep, hn] at hkeep
  simp only [survives, Bool.or_eq_true, decide_eq_true_eq,
    List.any_eq_true, Bool.and_eq_true] at hkeep
  rcases hkeep with hacc | ⟨j, hjmem, ⟨hij, hparent⟩, hsurv⟩
  · exact hacc
  · exfalso
    have hjlen : j < arena.length := List.mem_range.mp hjmem
    have hij' : i < j := hij
    have hparent' : (arena.getD j default).parent = some i := hparent
    have hstable : survives arena pruneLen n j =
        survives arena pruneLen arena.length j := by
      apply survives_stable
      · omega
      · omega
    have : pruneKeep arena pruneLen j = true := by
      rw [pruneKeep, ← hstable]
      exact hsurv
    rw [hleaf j hjlen hparent'] at this
    cases this

/-- Witness for the amended C1 at a single retained leaf within budget. -/
theorem C1_pruned_tips_witness :
    (([⟨⟨0, 0⟩, none, 0⟩] : List TreeNode).getD 0 default).acc ≤ 50 :=
  C1_pruned_tips [⟨⟨0, 0⟩, none, 0⟩] 50 0 (by decide) (by decide)
    (by
      intro j hj hp
      have hj1 : j < 1 := by simpa using hj
      have hj0 : j = 0 := by omega
      subst hj0
      exact absurd hp (by decide))

/-- C1 counterexample: in the completed bottom layer of the generator built
from `exPO` and `exParams`, a retained interior node (kept alive by a
surviving child that reset its own accumulator inside the overhang region)
has accumulated unsupported distance 100, exceeding the prune length 50.  So
the claim that no retained node of a completed layer's final forest exceeds
`prune_length` is false; only branch tips are bounded by it. -/
theorem C1_counterexample :
    LightningGenerator.construct exPO exParams = .ok exGen ∧
    (exGen.m_lightning_layers.getD 0 default).nodes.any
      (fun n => decide (exParams.prune_length < (n.acc : Int))) = true ∧
    exParams.prune_length = 50 :=
  ⟨rfl, by decide, rfl⟩

/-! ### Claim C9: root count against the supporting radius -/

/-- C9 (amended): increasing the supporting radius never shrinks coverage
pointwise: with `0 ≤ r1 ≤ r2`, any overhang point uncovered at radius `r2`
was already uncovered at radius `r1` (equivalently, any point covered by the
carried-down nodes at `r1` is still covered at `r2`).  The total number of
roots spawned over a full run is however not monotone, as
`C9_counterexample` shows. -/
theorem C9_coverage_monotone (carried : List TreeNode) (r1 r2 : Int)
    (ov : List Point) (p : Point) (h0 : 0 ≤ r1) (h12 : r1 ≤ r2)
    (hp : p ∈ uncoveredPoints carried r2 ov) :
    p ∈ uncoveredPoints carried r1 ov ∧
    (coveredBy carried r1 p = true → coveredBy carried r2 p = true) := by
  have hmono : coveredBy carried r1 p = true → coveredBy carried r2 p = true := by
    intro h
    simp only [coveredBy, List.any_eq_true, decide_eq_true_eq] at h ⊢
    obtain ⟨n, hn, hd⟩ := h
    exact ⟨n, hn, le_trans hd (mul_self_le_mul_self h0 h12)⟩
  rcases List.mem_filter.mp hp with ⟨hpov, hne⟩
  refine ⟨List.mem_filter.mpr ⟨hpov, ?_⟩, hmono⟩
  simp only [Bool.not_eq_eq_eq_not, Bool.not_true, Bool.not_eq_true'] at hne ⊢
  cases hcov : coveredBy carried r1 p with
  | false => rfl
  | true => rw [hmono hcov] at hne; cases hne

/-- Witness for the amended C9: a point far from the single carried node is
uncovered at radius 2 and hence also at radius 1. -/
theorem C9_coverage_monotone_witness :
    (⟨5, 5⟩ : Point) ∈ uncoveredPoints [⟨⟨0, 0⟩, none, 0⟩] 1 [⟨5, 5⟩] :=
  (C9_coverage_monotone [⟨⟨0, 0⟩, none, 0⟩] 1 2 [⟨5, 5⟩] ⟨5, 5⟩
    (by decide) (by decide) (by decide)).1

/-- C9 counterexample: on `exPO9`, with all other parameters equal, raising
the supporting radius from 45 to 80 raises the total number of spawned roots
from 2 to 3 (the larger radius builds a longer chain whose child is later
pruned away, leaving the bottom layer to spawn two fresh roots), refuting the
claimed monotonicity. -/
theorem C9_counterexample :
    exParams9a.supporting_radius ≤ exParams9b.supporting_radius ∧
    exParams9a.wall_supporting_radius = exParams9b.wall_supporting_radius ∧
    exParams9a.prune_length = exParams9b.prune_length ∧
    exParams9a.straightening_max_distance =
      exParams9b.straightening_max_distance ∧
    exParams9a.infill_extrusion_width = exParams9b.infill_extrusion_width ∧
    totalRootsSpawned exPO9 exParams9a = 2 ∧
    totalRootsSpawned exPO9 exParams9b = 3 ∧
    ¬ (totalRootsSpawned exPO9 exParams9b ≤
         totalRootsSpawned exPO9 exParams9a) := by
  refine ⟨by decide, rfl, rfl, rfl, rfl, by decide, by decide, by decide⟩

/-! ### Claim C2: the per-layer node graph is a forest -/

/-- Well-formedness of an arena under the design notes' discipline: every
parent link points strictly into the prefix of the arena. -/
def WFForest (nodes : List TreeNode) : Prop :=
  ∀ i p, i < nodes.length → (nodes.getD i default).parent = some p → p < i

/-- Iterated parent lookup: the ancestor of `i` reached after `k` parent
steps, if every step finds a parent. -/
def parentIter (nodes : List TreeNode) : Nat → Nat → Option Nat
  | 0, i => some i
  | k + 1, i =>
      match (nodes.getD i default).parent with
      | none => none
      | some p => parentIter nodes k p

theorem getD_lt' {α : Type} (l : List α) (d : α) (i : Nat)
    (h : i < l.length) : l.getD i d = l.get ⟨i, h⟩ := by
  simp [List.getD_eq_getElem?_getD, List.getElem?_eq_getElem h]

theorem getD_range_map' {α : Type} (n : Nat) (f : Nat → α) (d : α)
    (i : Nat) (h : i < n) : ((List.range n).map f).getD i d = f i := by
  have h2 : i < ((List.range n).map f).length := by simpa using h
  rw [getD_lt' _ _ _ h2]
  simp

theorem wf_of_range_map (m : Nat) (f : Nat → TreeNode)
    (hf : ∀ j p, (f j).parent = some p → p < j) :
    WFForest ((List.range m).map f) := by
  intro i p hi hp
  have hi' : i < m := by simpa using hi
  rw [getD_lt _ _ hi] at hp
  simp only [List.get_eq_getElem, List.getElem_map, List.getElem_range] at hp
  exact hf i p hp

/-- The compaction of any arena satisfies the arena discipline: parent links
of the frozen layer always point strictly into the prefix. -/
theorem WFForest_compact (arena : List TreeNode) (mask : List Bool) :
    WFForest (compact arena mask) := by
  apply wf_of_range_map
  intro j p h
  dsimp only at h
  split at h
  · cases h
  · rename_i p0 hp0
    split at h
    · cases h
    · rename_i pj hpj
      split at h
      · cases h
        assumption
      · cases h

theorem parentIter_zero (nodes : List TreeNode) (i : Nat) :
    parentIter nodes 0 i = some i := rfl

theorem parentIter_succ (nodes : List TreeNode) (k i : Nat) :
    parentIter nodes (k + 1) i =
      match (nodes.getD i default).parent with
      | none => none
      | some p => parentIter nodes k p := rfl

/-- Under well-formedness, a positive number of parent steps strictly
decreases the index. -/
theorem parentIter_lt (nodes : List TreeNode) (hwf : WFForest nodes) :
    ∀ k i j, i < nodes.length → parentIter nodes (k + 1) i = some j →
      j < i := by
  intro k
  induction k with
  | zero =>
      intro i j hi h
      rw [parentIter_succ] at h
      cases hp : (nodes.getD i default).parent with
      | none => rw [hp] at h; cases h
      | some p =>
          rw [hp] at h
          dsimp only at h
          rw [parentIter_zero] at h
          cases h
          exact hwf i _ hi hp
  | succ k ih =>
      intro i j hi h
      rw [parentIter_succ] at h
      cases hp : (nodes.getD i default).parent with
      | none => rw [hp] at h; cases h
      | some p =>
          rw [hp] at h
          dsimp only at h
          have hpi : p < i := hwf i p hi hp
          have hplen : p < nodes.length := lt_trans hpi hi
          exact lt_trans (ih p j hplen h) hpi

/-- Every completed layer of the driver is a frozen (compacted) arena. -/
theorem mem_buildLayers_shape (r : Int) (pruneLen : Nat) (eps : Int) :
    ∀ ovs carried la, la ∈ (buildLayers r pruneLen eps carried ovs).1 →
      ∃ a m, la.nodes = compact a m := by
  intro ovs
  induction ovs with
  | nil =>
      intro carried la h
      simp [buildLayers] at h
  | cons ov rest ih =>
      intro carried la h
      simp only [buildLayers, List.mem_cons] at h
      rcases h with h | h
      · exact ⟨_, _, by rw [h]; rfl⟩
      · exact ih _ la h

/-- C2: for every completed layer of a constructed generator, the
parent/child graph is a forest: parent links point strictly into the arena
prefix, no chain of parent steps returns to its starting node (acyclicity),
and every non-root node has exactly one parent (so no node is owned by two
parents). -/
theorem C2_forest_invariant (po : PrintObject) (prm : Params)
    (g : LightningGenerator)
    (h : LightningGenerator.construct po prm = .ok g)
    (la : LightningLayer) (hla : la ∈ g.m_lightning_layers) :
    WFForest la.nodes ∧
    (∀ i k, i < la.nodes.length → parentIter la.nodes (k + 1) i ≠ some i) ∧
    (∀ i p1 p2, (la.nodes.getD i default).parent = some p1 →
       (la.nodes.getD i default).parent = some p2 → p1 = p2) := by
  have hlayers : g.m_lightning_layers = generateTrees po prm := by
    rw [LightningGenerator.construct] at h
    split at h
    · cases h
      rfl
    · cases h
  rw [hlayers] at hla
  rw [generateTrees, generateTreesAux] at hla
  have hmem := List.mem_reverse.mp hla
  obtain ⟨a, m, hnodes⟩ := mem_buildLayers_shape _ _ _ _ _ _ hmem
  have hwf : WFForest la.nodes := by
    rw [hnodes]
    exact WFForest_compact a m
  refine ⟨hwf, ?_, ?_⟩
  · intro i k hi hcycle
    exact absurd (parentIter_lt la.nodes hwf k i i hi hcycle) (lt_irrefl i)
  · intro i p1 p2 h1 h2
    rw [h1] at h2
    exact Option.some.inj h2

/-- Witness for C2 on the bottom layer of the concrete generator `exGen`. -/
theorem C2_forest_invariant_witness :
    WFForest (exGen.m_lightning_layers.getD 0 default).nodes :=
  (C2_forest_invariant exPO exParams exGen rfl
    (exGen.m_lightning_layers.getD 0 default) (by decide)).1

/-! ### Claim C3: the straightening step never moves retained nodes -/

theorem getD_ge' {α : Type} (l : List α) (d : α) (i : Nat)
    (h : l.length ≤ i) : l.getD i d = d := by
  simp [List.getD_eq_getElem?_getD, List.getElem?_eq_none h]

theorem segLen_self (p : Point) : segLen p p = 0 := by
  simp [segLen, dist2, isqrt, isqrtAux]

theorem mem_foldr_append {α β : Type} (l : List β) (f : β → List α) (x : α) :
    x ∈ l.foldr (fun b acc => f b ++ acc) [] ↔ ∃ b ∈ l, x ∈ f b := by
  induction l with
  | nil => simp
  | cons b t ih => simp [ih]

/-- Every node collected while climbing a run is a genuine interior node: it
is retained, has exactly one retained child, and is not a root. -/
theorem climbInteriors_prop (arena : List TreeNode) (mask : List Bool) :
    ∀ fuel i x, x ∈ climbInteriors arena mask fuel i →
      isAlive mask x = true ∧ aliveChildCount arena mask x = 1 ∧
      (arena.getD x default).parent ≠ none := by
  intro fuel
  induction fuel with
  | zero =>
      intro i x hx
      simp [climbInteriors] at hx
  | succ f ih =>
      intro i x hx
      rw [climbInteriors] at hx
      cases hp : (arena.getD i default).parent with
      | none => rw [hp] at hx; cases hx
      | some p =>
          rw [hp] at hx
          dsimp only at hx
          split at hx
          · rename_i hguard
            simp only [Bool.and_eq_true, decide_eq_true_eq] at hguard
            rcases List.mem_cons.mp hx with hxp | hxtail
            · subst hxp
              exact ⟨hguard.1.1, hguard.1.2, hguard.2⟩
            · exact ih p x hxtail
          · cases hx

/-- Every node dropped by the straightening step is an interior node of a
non-branching run. -/
theorem mem_straightenDropped (arena : List TreeNode) (mask : List Bool)
    (eps : Int) (x : Nat) (hx : x ∈ straightenDropped arena mask eps) :
    isAlive mask x = true ∧ aliveChildCount arena mask x = 1 ∧
    (arena.getD x default).parent ≠ none := by
  rw [straightenDropped, mem_foldr_append] at hx
  obtain ⟨e, _, hx⟩ := hx
  simp only [droppedForEnd] at hx
  exact climbInteriors_prop arena mask _ e x (List.mem_filter.mp hx).1

/-- C3: the straightening step moves no node: every index still present
after straightening holds a node at its exact pre-straightening position
(displacement 0, in particular at most `straightening_max_distance`) with an
unchanged accumulator; retained roots and branch points are never dropped;
and only interior nodes of non-branching runs are ever dropped. -/
theorem C3_straightening_bound (arena : List TreeNode) (mask : List Bool)
    (eps : Int) :
    (∀ i, i < arena.length →
       ((straighten arena mask eps).1.getD i default).pos =
         (arena.getD i default).pos ∧
       segLen (arena.getD i default).pos
         ((straighten arena mask eps).1.getD i default).pos ≤ eps.toNat ∧
       ((straighten arena mask eps).1.getD i default).acc =
         (arena.getD i default).acc) ∧
    (∀ i, isAlive (straighten arena mask eps).2 i = true →
       isAlive mask i = true) ∧
    (∀ i, i < arena.length → isAlive mask i = true →
       ((arena.getD i default).parent = none ∨
          2 ≤ aliveChildCount arena mask i) →
       isAlive (straighten arena mask eps).2 i = true) ∧
    (∀ i, i < arena.length → isAlive mask i = true →
       isAlive (straighten arena mask eps).2 i = false →
       (arena.getD i default).parent ≠ none ∧
       aliveChildCount arena mask i = 1) := by
  refine ⟨?_, ?_, ?_, ?_⟩
  · intro i hi
    have hpos : ((straighten arena mask eps).1.getD i default).pos =
        (arena.getD i default).pos := by
      simp only [straighten]
      rw [getD_range_map _ _ _ hi]
    refine ⟨hpos, ?_, ?_⟩
    · rw [hpos, segLen_self]
      exact Nat.zero_le _
    · simp only [straighten]
      rw [getD_range_map _ _ _ hi]
  · intro i h
    by_cases hi : i < arena.length
    · rw [isAlive] at h
      simp only [straighten] at h
      rw [getD_range_map' _ _ _ _ hi] at h
      simp only [Bool.and_eq_true] at h
      exact h.1
    · exfalso
      rw [isAlive] at h
      simp only [straighten] at h
      rw [getD_ge' _ _ _ (by simpa using Nat.le_of_not_lt hi)] at h
      cases h
  · intro i hi halive hshape
    rw [isAlive]
    simp only [straighten]
    rw [getD_range_map' _ _ _ _ hi]
    simp only [halive, Bool.true_and, Bool.not_eq_true']
    cases hany : ((straightenDropped arena mask eps).any fun d => decide (d = i)) with
    | false => rfl
    | true =>
        exfalso
        simp only [List.any_eq_true, decide_eq_true_eq] at hany
        obtain ⟨d, hd, rfl⟩ := hany
        obtain ⟨_, hcount, hroot⟩ := mem_straightenDropped arena mask eps d hd
        rcases hshape with hnone | htwo
        · exact hroot hnone
        · omega
  · intro i hi halive hdead
    rw [isAlive] at hdead
    simp only [straighten] at hdead
    rw [getD_range_map' _ _ _ _ hi] at hdead
    simp only [halive, Bool.true_and, Bool.not_eq_false'] at hdead
    simp only [List.any_eq_true, decide_eq_true_eq] at hdead
    obtain ⟨d, hd, rfl⟩ := hdead
    obtain ⟨_, hcount, hroot⟩ := mem_straightenDropped arena mask eps d hd
    exact ⟨hroot, hcount⟩

/-- Witness for C3 on a single retained root node: its position after
straightening is unchanged. -/
theorem C3_straightening_bound_witness :
    ((straighten [⟨⟨7, 9⟩, none, 0⟩] [true] 10).1.getD 0 default).pos =
      (([⟨⟨7, 9⟩, none, 0⟩] : List TreeNode).getD 0 default).pos :=
  ((C3_straightening_bound [⟨⟨7, 9⟩, none, 0⟩] [true] 10).1 0 (by decide)).1

end Lightning
